import Mathlib

/-
Verification of the event query/filter layer of an event-listing site.

The layer under study normalizes a remote JSON document (a mapping from
string keys to event records) into a list of event entities and answers
four queries: all events, featured events, event by id, and events by
year/month.  The normalization step builds each entity with the object
literal `{ id: key, ...data[key] }`, the featured query filters on the
`isFeatured` flag, the by-id query scans with `find`, and the year/month
query filters by comparing `new Date(event.date).getFullYear()` and
`.getMonth()` against the requested year and zero-based month.

Modelling choices:
- JavaScript `new Date(s)` followed by `getFullYear()` / `getMonth()` is
  modelled for the ECMAScript date-only forms `YYYY`, `YYYY-MM` and
  `YYYY-MM-DD` (time value at UTC midnight), with the host time zone taken
  as UTC+0, so the observed pair is (calendar year, zero-based calendar
  month).  Strings outside this grammar and out-of-range field values give
  an invalid date, whose accessors return NaN; since `NaN === n` is false
  for every n, this is modelled as `none`.  Implementation-defined
  fallback formats and date-time forms are outside the model.
- A stored record is typed by the spec's data model (six fields), plus an
  optional property literally named `id`, which is the only extra
  property that can interact with the queried fields through the spread.
- Machine numbers that reach comparisons are calendar years/months; they
  are modelled as `Int` (no overflow is reachable at these magnitudes).
-/

/-- Numeric value of a decimal digit character. -/
def digitVal (c : Char) : Nat := c.toNat - 48

/-- Value of the four-digit decimal year `abcd`. -/
def fourDigitVal (a b c d : Char) : Nat :=
  1000 * digitVal a + 100 * digitVal b + 10 * digitVal c + digitVal d

/-- Value of the two-digit decimal field `ab`. -/
def twoDigitVal (a b : Char) : Nat := 10 * digitVal a + digitVal b

/-- Proleptic Gregorian leap-year rule, as used by ECMAScript time values. -/
def isLeapYear (y : Nat) : Bool := y % 4 == 0 && (y % 100 != 0 || y % 400 == 0)

/-- Number of days of month `m` (1-based) in year `y`. -/
def daysInMonth (y m : Nat) : Nat :=
  if m == 2 then (if isLeapYear y then 29 else 28)
  else if m == 4 || m == 6 || m == 9 || m == 11 then 30
  else 31

/-- Strict `YYYY-MM-DD` digit block: given the four year digits, two month
digits and two day digits, returns `some (year, month)` (month 1-based) when
all eight characters are decimal digits and the fields denote a valid
proleptic Gregorian calendar date, and `none` otherwise. -/
def parseYMDChars (a b c d m1 m2 d1 d2 : Char) : Option (Int × Int) :=
  if (a.isDigit && b.isDigit && c.isDigit && d.isDigit &&
      m1.isDigit && m2.isDigit && d1.isDigit && d2.isDigit) = true ∧
      1 ≤ twoDigitVal m1 m2 ∧ twoDigitVal m1 m2 ≤ 12 ∧
      1 ≤ twoDigitVal d1 d2 ∧
      twoDigitVal d1 d2 ≤ daysInMonth (fourDigitVal a b c d) (twoDigitVal m1 m2) then
    some ((fourDigitVal a b c d : Int), (twoDigitVal m1 m2 : Int))
  else none

/-- Model of `new Date(s).getFullYear()` / `.getMonth()` on the character
list of `s`: `some (fullYear, zeroBasedMonth)` for the ECMAScript date-only
forms `YYYY`, `YYYY-MM`, `YYYY-MM-DD` (host time zone modelled as UTC+0),
`none` for an invalid date (NaN accessors). -/
def jsDateListYearMonth : List Char → Option (Int × Int)
  | [a, b, c, d] =>
    if (a.isDigit && b.isDigit && c.isDigit && d.isDigit) = true then
      some ((fourDigitVal a b c d : Int), 0)
    else none
  | [a, b, c, d, h1, m1, m2] =>
    if (h1 == '-' && a.isDigit && b.isDigit && c.isDigit && d.isDigit &&
        m1.isDigit && m2.isDigit) = true ∧
        1 ≤ twoDigitVal m1 m2 ∧ twoDigitVal m1 m2 ≤ 12 then
      some ((fourDigitVal a b c d : Int), (twoDigitVal m1 m2 : Int) - 1)
    else none
  | [a, b, c, d, h1, m1, m2, h2, d1, d2] =>
    if (h1 == '-' && h2 == '-') = true then
      (parseYMDChars a b c d m1 m2 d1 d2).map (fun p => (p.1, p.2 - 1))
    else none
  | _ => none

/-- Model of `new Date(s).getFullYear()` / `.getMonth()` on a string. -/
def jsDateYearMonth (s : String) : Option (Int × Int) :=
  jsDateListYearMonth s.toList

/-- The specification's reading of a `date` field, on the character list:
a string in strict ISO calendar-date form `YYYY-MM-DD` denoting a valid
local calendar date, read as `some (year, month)` with the month 1-based;
`none` when the string is not of that form.  Stated from the spec's words,
for comparison with the code's `new Date` behaviour. -/
def specParseYMDList : List Char → Option (Int × Int)
  | [a, b, c, d, h1, m1, m2, h2, d1, d2] =>
    if (h1 == '-' && h2 == '-') = true then parseYMDChars a b c d m1 m2 d1 d2
    else none
  | _ => none

/-- The specification's reading of a `date` field, on a string. -/
def specParseYMD (s : String) : Option (Int × Int) :=
  specParseYMDList s.toList

/-- An event record as stored in the remote document, typed by the spec's
data model.  `idField` models a property literally named `id` inside the
stored record (normally absent): through the spread `{ id: key, ...record }`
it is the only record property that can interact with the injected key.
Extra properties under other names do not affect any queried field and are
not modelled. -/
structure EventRec where
  title : String
  date : String
  description : String
  image : String
  isFeatured : Bool
  location : String
  idField : Option String
deriving DecidableEq

/-- An event entity as produced by the normalization step. -/
structure Event where
  id : String
  title : String
  date : String
  description : String
  image : String
  isFeatured : Bool
  location : String
deriving DecidableEq

/-- A parsed remote document: the key/record pairs of the JSON object, in
enumeration order (`for ... in` order).  JSON object keys are unique; where
a claim needs that fact it is taken as a hypothesis on the key list. -/
abbrev Document := List (String × EventRec)

/-- The object literal `{ id: key, ...data[key] }`: the spread copies the
record's own properties after the initial `id: key` write, so a property
named `id` inside the record overwrites the injected key (later writes
win); all other entity fields come from the record. -/
def mkEvent (key : String) (r : EventRec) : Event :=
  { id := r.idField.getD key
    title := r.title
    date := r.date
    description := r.description
    image := r.image
    isFeatured := r.isFeatured
    location := r.location }

/-- The `for (const key in data) events.push({ id: key, ...data[key] })`
loop of getAllEvents, applied to a parsed document. -/
def eventsOfDoc (doc : Document) : List Event :=
  doc.map fun kv => mkEvent kv.1 kv.2

/-- Outcome of `await response.json()` as seen by the loop: the body can be
invalid JSON (the promise rejects), the JSON value `null`, or a mapping
from keys to event records. -/
inductive Body
  | malformedJson : Body
  | jsonNull : Body
  | jsonDoc : Document → Body
deriving DecidableEq

/-- Outcome of `await fetch(url)`: either the promise rejects (network
failure), or a response arrives carrying `response.ok` (status in the
success range) and a body. -/
inductive FetchOutcome
  | networkFailure : FetchOutcome
  | response : Bool → Body → FetchOutcome
deriving DecidableEq

/-- A failure propagated out of getAllEvents: the rejection of `fetch`
itself, or the rejection of `response.json()` on a body that is not valid
JSON. -/
inductive JsFailure
  | fetchRejected : JsFailure
  | jsonRejected : JsFailure
deriving DecidableEq

/-- getAllEvents pipeline: `await fetch(url)` rethrows a network rejection;
`await response.json()` rethrows when the body is not valid JSON; the
response status (`response.ok`) is never read; `for ... in` over `null`
performs no iterations, so a `null` body yields the empty list. -/
def getAllEvents : FetchOutcome → Except JsFailure (List Event)
  | FetchOutcome.networkFailure => Except.error JsFailure.fetchRejected
  | FetchOutcome.response _ Body.malformedJson => Except.error JsFailure.jsonRejected
  | FetchOutcome.response _ Body.jsonNull => Except.ok []
  | FetchOutcome.response _ (Body.jsonDoc doc) => Except.ok (eventsOfDoc doc)

/-- getFeaturedEvents: `allEvents.filter((event) => event.isFeatured)`,
applied to the events of a parsed document. -/
def getFeaturedEvents (doc : Document) : List Event :=
  (eventsOfDoc doc).filter fun event => event.isFeatured

/-- getEventById: `allEvents.find((event) => event.id === id)`; JavaScript
`find` yields `undefined` when nothing matches, modelled as `none`. -/
def getEventById (doc : Document) (id : String) : Option Event :=
  (eventsOfDoc doc).find? fun event => event.id == id

/-- The `dateFilter` argument `{ year, month }` of getFilteredEvents. -/
structure DateFilter where
  year : Int
  month : Int

/-- The filter predicate of getFilteredEvents:
`eventDate.getFullYear() === year && eventDate.getMonth() === month - 1`,
where `eventDate = new Date(event.date)`.  On an invalid date both
accessors are NaN and both strict equalities are false. -/
def eventMatchesFilter (year month : Int) (event : Event) : Bool :=
  match jsDateYearMonth event.date with
  | none => false
  | some p => p.1 == year && p.2 == month - 1

/-- getFilteredEvents: filters the events of the document by the requested
year and month; no sort is applied. -/
def getFilteredEvents (dateFilter : DateFilter) (doc : Document) : List Event :=
  (eventsOfDoc doc).filter (eventMatchesFilter dateFilter.year dateFilter.month)

/-- The filter predicate inlined in FilteredEventsPage:
`eventDate.getFullYear() === numYear && eventDate.getMonth() === numMonth - 1`,
where `eventDate = new Date(event.date)` — a duplicate of the repository
helper's predicate. -/
def clientEventMatches (numYear numMonth : Int) (event : Event) : Bool :=
  match jsDateYearMonth event.date with
  | none => false
  | some p => p.1 == numYear && p.2 == numMonth - 1

/-- The client-side filter of FilteredEventsPage:
`loadedEvents.filter((event) => ...)` over the events the page loaded. -/
def clientFilteredEvents (numYear numMonth : Int) (loadedEvents : List Event) : List Event :=
  loadedEvents.filter (clientEventMatches numYear numMonth)

/-- Fixture record with defaulted descriptive fields. -/
def mkRec (title date : String) (featured : Bool) (idf : Option String) : EventRec :=
  { title := title
    date := date
    description := "d"
    image := "i.jpg"
    isFeatured := featured
    location := "loc"
    idField := idf }

/-- Fixture document whose two records both carry their own `id` field with
the same value, under distinct mapping keys. -/
def docDupIds : Document :=
  [("a", mkRec "A" "2021-05-12" false (some "x")),
   ("b", mkRec "B" "2021-06-01" true (some "x"))]

/-- Fixture document with two plain records (no `id` field of their own). -/
def docPlain : Document :=
  [("k1", mkRec "A" "2021-05-12" false none),
   ("k2", mkRec "B" "2021-06-01" true none)]

/-- Shared lemma: the id projection of the normalized list is, entrywise,
the record's own `id` field when present and the mapping key otherwise. -/
theorem idMapLemma (doc : Document) :
    (eventsOfDoc doc).map Event.id = doc.map fun kv => kv.2.idField.getD kv.1 := by
  induction doc with
  | nil => rfl
  | cons kv tl ih =>
    simp only [eventsOfDoc, List.map_cons] at ih ⊢
    rw [ih]
    rfl

/-- Shared lemma: the filter predicate holds exactly when the modelled
`new Date` accessors give the requested year and zero-based month. -/
theorem eventMatchesFilterIff (year month : Int) (event : Event) :
    eventMatchesFilter year month event = true ↔
      jsDateYearMonth event.date = some (year, month - 1) := by
  unfold eventMatchesFilter
  cases h : jsDateYearMonth event.date with
  | none => simp
  | some p =>
    cases p with
    | mk fy m0 =>
      simp only [Bool.and_eq_true, beq_iff_eq, Option.some.injEq, Prod.mk.injEq]

/-- Shared lemma: a string accepted by the spec's strict `YYYY-MM-DD`
reading is also accepted by the modelled `new Date`, with the month
shifted to zero-based. -/
theorem specParseListToJs (l : List Char) (y m : Int)
    (h : specParseYMDList l = some (y, m)) :
    jsDateListYearMonth l = some (y, m - 1) := by
  unfold specParseYMDList at h
  split at h
  next a b c d h1 m1 m2 h2 d1 d2 =>
    by_cases hd : (h1 == '-' && h2 == '-') = true
    · rw [if_pos hd] at h
      simp only [jsDateListYearMonth]
      rw [if_pos hd, h]
      rfl
    · rw [if_neg hd] at h
      exact absurd h (by simp)
  next =>
    exact absurd h (by simp)

/-- C1 counterexample: in the document mapping key "e1" to a record that
itself carries an `id` field "evil", the produced event's id is "evil",
not the mapping key "e1" — the record's own `id` field replaces the
injected key, contradicting the claim. -/
theorem eventsOfDocIdOverrideCex :
    (eventsOfDoc [("e1", mkRec "A" "2021-05-12" false (some "evil"))]).map Event.id
        = ["evil"] ∧
      (eventsOfDoc [("e1", mkRec "A" "2021-05-12" false (some "evil"))]).map Event.id
        ≠ [("e1", mkRec "A" "2021-05-12" false (some "evil"))].map Prod.fst := by
  exact ⟨rfl, by decide⟩

/-- C1 amended: each produced event's id is the record's own `id` field
when the record contains one (the spread in `{ id: key, ...data[key] }`
overwrites the injected key), and the mapping key otherwise; in
particular, when no record carries its own `id` field every id equals its
mapping key. -/
theorem eventsOfDocIdMap (doc : Document) :
    (eventsOfDoc doc).map Event.id = doc.map fun kv => kv.2.idField.getD kv.1 :=
  idMapLemma doc

/-- C3: the featured list is an order-preserving subsequence of the full
list, and membership in it is exactly membership in the full list together
with the `isFeatured` flag. -/
theorem getFeaturedEventsSpec (doc : Document) :
    List.Sublist (getFeaturedEvents doc) (eventsOfDoc doc) ∧
      ∀ event, event ∈ getFeaturedEvents doc ↔
        event ∈ eventsOfDoc doc ∧ event.isFeatured = true := by
  constructor
  · exact List.filter_sublist _
  · intro event
    simp [getFeaturedEvents]

/-- C5 counterexample: a response carrying a non-success HTTP status
(`response.ok = false`) with a parseable body is processed normally and
returns a result instead of failing — the status is never inspected,
contradicting the claim that such a response yields a FetchError. -/
theorem getAllEventsIgnoresStatusCex :
    getAllEvents (FetchOutcome.response false Body.jsonNull) = Except.ok [] := rfl

/-- C5 amended: getAllEvents fails exactly when the HTTP call itself errors
(the fetch rejection propagates) or the response body is not valid JSON
(the response.json rejection propagates); the HTTP status is never
inspected, and no failure is suppressed or replaced by a default. -/
theorem getAllEventsFailureIff (r : FetchOutcome) :
    (∃ e, getAllEvents r = Except.error e) ↔
      (r = FetchOutcome.networkFailure ∨
        ∃ ok, r = FetchOutcome.response ok Body.malformedJson) := by
  cases r with
  | networkFailure => simp [getAllEvents]
  | response ok body => cases body <;> simp [getAllEvents]

/-- C7: when the response body is the JSON value null, getAllEvents
returns the empty list and no error, whatever the HTTP status was. -/
theorem getAllEventsNullBody (ok : Bool) :
    getAllEvents (FetchOutcome.response ok Body.jsonNull) = Except.ok [] := rfl

/-- C9: for every document and filter, the filtered list is an
order-preserving subsequence of the full event list — no sort or
reordering is applied. -/
theorem getFilteredEventsSublist (doc : Document) (dateFilter : DateFilter) :
    List.Sublist (getFilteredEvents dateFilter doc) (eventsOfDoc doc) :=
  List.filter_sublist _

/-- C10: the client-side filter of FilteredEventsPage computes, on any
event list, exactly what the repository helper's filter computes for the
same year and month, and hence agrees with getFilteredEvents on the events
of any document. -/
theorem clientFilterEqRepoFilter (numYear numMonth : Int) :
    (∀ events, clientFilteredEvents numYear numMonth events =
        events.filter (eventMatchesFilter numYear numMonth)) ∧
      ∀ doc, clientFilteredEvents numYear numMonth (eventsOfDoc doc) =
        getFilteredEvents (DateFilter.mk numYear numMonth) doc :=
  ⟨fun _ => rfl, fun _ => rfl⟩

/-- Shared lemma: when no record carries its own `id` field, the entrywise
id values reduce to the mapping keys. -/
theorem idMapKeysLemma (doc : Document)
    (hnoid : ∀ kv ∈ doc, kv.2.idField = none) :
    (doc.map fun kv => kv.2.idField.getD kv.1) = doc.map Prod.fst := by
  induction doc with
  | nil => rfl
  | cons kv tl ih =>
    simp only [List.map_cons, hnoid kv (List.mem_cons_self kv tl), Option.getD_none,
      ih fun x hx => hnoid x (List.mem_cons_of_mem kv hx)]

/-- C2 counterexample: two records stored under the distinct keys "a" and
"b" but both carrying their own `id` field "x" produce two events with the
same id, contradicting the uniqueness claim. -/
theorem eventsOfDocDuplicateIdCex :
    (docDupIds.map Prod.fst).Nodup ∧
      ¬ ((eventsOfDoc docDupIds).map Event.id).Nodup := by
  decide

/-- C2 amended: provided no stored record carries its own `id` field, the
ids of the produced events are pairwise distinct — they are exactly the
document's keys, which are unique in a JSON object. -/
theorem eventsOfDocIdNodup (doc : Document)
    (hkeys : (doc.map Prod.fst).Nodup)
    (hnoid : ∀ kv ∈ doc, kv.2.idField = none) :
    ((eventsOfDoc doc).map Event.id).Nodup := by
  rw [idMapLemma, idMapKeysLemma doc hnoid]
  exact hkeys

/-- C2 witness: the amended uniqueness theorem applied to a concrete
two-record document without `id` fields. -/
theorem eventsOfDocIdNodupWitness :
    (docPlain.map Prod.fst).Nodup ∧ ((eventsOfDoc docPlain).map Event.id).Nodup :=
  ⟨by decide, eventsOfDocIdNodup docPlain (by decide) (by decide)⟩

/-- Shared lemma: in a list of events with pairwise distinct ids, scanning
for the id of a member finds exactly that member. -/
theorem findByIdLemma (l : List Event) (h : (l.map Event.id).Nodup)
    (e : Event) (he : e ∈ l) :
    l.find? (fun x => x.id == e.id) = some e := by
  induction l with
  | nil => cases he
  | cons a tl ih =>
    rw [List.map_cons, List.nodup_cons] at h
    rcases List.mem_cons.mp he with heq | htl
    · subst heq
      exact List.find?_cons_of_pos _ (by simp)
    · have hne : ¬ a.id = e.id := by
        intro hcontra
        exact h.1 (hcontra ▸ List.mem_map_of_mem Event.id htl)
      rw [List.find?_cons_of_neg _ (by simp [hne])]
      exact ih h.2 htl

/-- C4 counterexample: in the two-record document whose records both carry
their own `id` field "x", the second produced event e has id "x", yet
getEventById on "x" returns the first event, which differs from e —
fetchById(e.id) does not return e for every e in fetchAll. -/
theorem getEventByIdShadowedCex :
    mkEvent "b" (mkRec "B" "2021-06-01" true (some "x")) ∈ eventsOfDoc docDupIds ∧
      getEventById docDupIds (mkEvent "b" (mkRec "B" "2021-06-01" true (some "x"))).id ≠
        some (mkEvent "b" (mkRec "B" "2021-06-01" true (some "x"))) := by
  decide

/-- C4 amended: provided the produced ids are pairwise distinct (as when no
record carries its own `id` field), getEventById on a fetched event's id
returns exactly that event; and unconditionally, getEventById on an id
that no fetched event has returns the explicit not-found value (undefined,
modelled as none) rather than failing. -/
theorem getEventByIdSpec (doc : Document) :
    (((eventsOfDoc doc).map Event.id).Nodup →
        ∀ event ∈ eventsOfDoc doc, getEventById doc event.id = some event) ∧
      ∀ id, (∀ event ∈ eventsOfDoc doc, event.id ≠ id) → getEventById doc id = none := by
  constructor
  · intro hids event hmem
    exact findByIdLemma (eventsOfDoc doc) hids event hmem
  · intro id hno
    unfold getEventById
    rw [List.find?_eq_none]
    intro x hx
    simp only [beq_iff_eq]
    exact hno x hx

/-- C4 witness: the amended by-id theorem applied to concrete documents —
retrieval of a present id on a document with distinct ids, and not-found
for an absent id even on the document whose produced ids are duplicated. -/
theorem getEventByIdSpecWitness :
    getEventById docPlain (mkEvent "k1" (mkRec "A" "2021-05-12" false none)).id =
        some (mkEvent "k1" (mkRec "A" "2021-05-12" false none)) ∧
      getEventById docDupIds "zzz" = none := by
  exact ⟨(getEventByIdSpec docPlain).1 (by decide)
      (mkEvent "k1" (mkRec "A" "2021-05-12" false none)) (by decide),
    (getEventByIdSpec docDupIds).2 "zzz" (by decide)⟩

/-- C6 counterexample: the event dated "2021-05" — a string that is not in
YYYY-MM-DD form, so the spec's reading of it fails — nevertheless appears
in the result of the year/month filter for year 2021, month 5, because
`new Date` also accepts the date-only form YYYY-MM. -/
theorem getFilteredEventsNonstrictDateCex :
    mkEvent "m1" (mkRec "M" "2021-05" false none) ∈
        getFilteredEvents (DateFilter.mk 2021 5)
          [("m1", mkRec "M" "2021-05" false none)] ∧
      specParseYMD "2021-05" = none := by
  decide

/-- C6 amended: an event appears in the year/month filter result iff it is
a fetched event whose date, under the modelled `new Date` behaviour
(ECMAScript date-only forms, host time zone UTC), yields the requested
full year and zero-based month; dates in strict YYYY-MM-DD form yield
exactly their calendar year and month, so for them the original claim
holds, but the forms YYYY and YYYY-MM also parse and can match. -/
theorem getFilteredEventsMembership (doc : Document) (dateFilter : DateFilter) :
    (∀ event, event ∈ getFilteredEvents dateFilter doc ↔
        event ∈ eventsOfDoc doc ∧
          jsDateYearMonth event.date = some (dateFilter.year, dateFilter.month - 1)) ∧
      ∀ s y m, specParseYMD s = some (y, m) → jsDateYearMonth s = some (y, m - 1) := by
  constructor
  · intro event
    unfold getFilteredEvents
    rw [List.mem_filter, eventMatchesFilterIff]
  · intro s y m h
    exact specParseListToJs s.toList y m h

/-- C6 witness: the amended membership theorem applied to a concrete
document with a strict YYYY-MM-DD date, in both components. -/
theorem getFilteredEventsMembershipWitness :
    mkEvent "k1" (mkRec "A" "2021-05-12" false none) ∈
        getFilteredEvents (DateFilter.mk 2021 5)
          [("k1", mkRec "A" "2021-05-12" false none)] ∧
      jsDateYearMonth "2021-05-12" = some (2021, 5 - 1) :=
  ⟨((getFilteredEventsMembership [("k1", mkRec "A" "2021-05-12" false none)]
        (DateFilter.mk 2021 5)).1 _).mpr ⟨by decide, by decide⟩,
    (getFilteredEventsMembership [] (DateFilter.mk 2021 5)).2 "2021-05-12" 2021 5
      (by decide)⟩

/-- C8: an event whose date the modelled `new Date` rejects (NaN accessors)
is excluded from the year/month filter result for every document and every
filter argument; the filter itself is a total function, so the unparseable
date causes no error. -/
theorem unparseableDateExcluded (doc : Document) (dateFilter : DateFilter)
    (event : Event) (h : jsDateYearMonth event.date = none) :
    event ∉ getFilteredEvents dateFilter doc := by
  intro hmem
  unfold getFilteredEvents at hmem
  have hm := (List.mem_filter.mp hmem).2
  rw [eventMatchesFilterIff, h] at hm
  exact Option.noConfusion hm

/-- C8 witness: the exclusion theorem applied to a concrete event whose
date string "not-a-date" is rejected by the modelled parser. -/
theorem unparseableDateExcludedWitness :
    jsDateYearMonth "not-a-date" = none ∧
      mkEvent "e1" (mkRec "X" "not-a-date" false none) ∉
        getFilteredEvents (DateFilter.mk 2021 5)
          [("e1", mkRec "X" "not-a-date" false none)] :=
  ⟨by decide, unparseableDateExcluded _ (DateFilter.mk 2021 5)
    (mkEvent "e1" (mkRec "X" "not-a-date" false none)) (by decide)⟩
